import Mathlib

/-!
Verification of the surface-coordinate normalization subsystem of `regseg`
(`regseg/interfaces/surfs.py`): the transform loader `load_transform`, and the
two mesh operations `normalize_surfs` (Operation A) and `surf2surf`
(Operation B, wrapped by the `ApplyLTATransform` interface).

Modelling conventions, fixed throughout this file:

* Real-valued data (vertex coordinates, matrix entries, metadata offsets) is
  embedded as exact rationals `ℚ`; the Python code computes with IEEE doubles
  and writes single-precision output, and the specification's coordinate
  formulas are stated in exact arithmetic.
* Face indices are integer-valued data (`int32` in the GIFTI arrays); the
  narrowing cast `astype('float32')` that `surf2surf` performs on them is
  modelled exactly by `roundF32 : ℤ → ℤ`, IEEE-754 round-to-nearest-even onto
  the binary32-representable integers.
* A file is its list of text lines (`List String`); a transform-file argument
  is `Option (String × List String)` (path and content), `none` standing for
  Python `None`.
* Python exceptions (KeyError, ValueError from shape mismatches, LinAlgError)
  are embedded as `Option`: an operation that raises before writing its output
  returns `none`; `numpy` calls that merely warn (`genfromtxt` on empty input)
  return their degenerate value, as numpy does.
* String scanning is done on the underlying character lists with structurally
  recursive functions, so every definition evaluates by kernel reduction.
-/

namespace Regseg

/-! ### Decimal parsing: the model of Python `float(...)` on plain decimals

The transform files and the `VolGeomC_*` metadata values hold plain decimal
literals (optional sign, digits, optional decimal point); this is the fragment
of Python's `float` that the file formats use.  An unparsable string makes
Python `float`/`np.loadtxt` raise, embedded as `none`. -/

/-- Numeric value of a digit character list (most significant first); `0` for
the empty list, matching `int('' or '0')`-style use below where emptiness is
guarded separately. -/
def digitsVal (cs : List Char) : ℕ :=
  cs.foldl (fun a c => 10 * a + (c.toNat - 48)) 0

/-- Parse an unsigned decimal: `digits`, `digits.digits`, `digits.`, or
`.digits` (each side possibly empty but not both), as Python `float` accepts. -/
def parseUnsignedDec (cs : List Char) : Option ℚ :=
  let ip := cs.takeWhile (fun c => c ≠ '.')
  let rest := cs.dropWhile (fun c => c ≠ '.')
  if ip.all Char.isDigit then
    match rest with
    | [] => if ip.isEmpty then none else some (digitsVal ip : ℚ)
    | '.' :: fp =>
      if fp.all Char.isDigit ∧ ¬(ip.isEmpty ∧ fp.isEmpty) then
        some ((digitsVal ip : ℚ) + (digitsVal fp : ℚ) / (10 : ℚ) ^ fp.length)
      else none
    | _ => none
  else none

/-- Parse a signed decimal literal, the model of Python `float(s)` for the
plain decimals appearing in transform files and GIFTI metadata. -/
def parseDec (s : String) : Option ℚ :=
  match s.data with
  | '-' :: cs => (parseUnsignedDec cs).map (fun q => -q)
  | '+' :: cs => parseUnsignedDec cs
  | cs => parseUnsignedDec cs

/-- Split a character list on whitespace, dropping empty fields: the
tokenization used by `np.loadtxt`, `np.genfromtxt` and `np.fromstring` with
whitespace separators. -/
def splitWsAux : List Char → List Char → List (List Char)
  | [], acc => if acc.isEmpty then [] else [acc.reverse]
  | c :: cs, acc =>
    if c.isWhitespace then
      if acc.isEmpty then splitWsAux cs [] else acc.reverse :: splitWsAux cs []
    else splitWsAux cs (c :: acc)

/-- Whitespace tokens of a line. -/
def lineTokens (s : String) : List String :=
  (splitWsAux s.data []).map (fun cs => String.mk cs)

/-- Parse one line as a row of decimal numbers; `none` if any token is not a
plain decimal (numpy raises on such a row in the `loadtxt` path). -/
def parseRow (s : String) : Option (List ℚ) :=
  (lineTokens s).mapM parseDec

/-! ### The float32 narrowing cast on integer data

`surf2surf` stores the triangle (face-index) array, originally `int32` data,
with `astype('float32')`.  For integers this cast is exact arithmetic:
round-to-nearest-even onto the integers representable in IEEE binary32
(24-bit significand).  `roundF32` embeds it; `f32unit` computes the spacing
`2^(max 0 (bitlength n - 24))` of representable integers around `n`.  Exponent
overflow (`n ≥ 2^128`) is out of range for `int32` data and not modelled. -/

/-- Spacing of binary32-representable integers at magnitude `n`: `1` below
`2^24`, doubling with each binade above.  The fuel argument (`64` at call
sites) bounds the number of halvings and is never exhausted for `int32`
magnitudes. -/
def f32unit : ℕ → ℕ → ℕ
  | 0, _ => 1
  | fuel + 1, n => if n < 2 ^ 24 then 1 else 2 * f32unit fuel (n / 2)

/-- Round a natural number to the nearest binary32-representable integer,
ties to the even significand. -/
def roundF32Nat (n : ℕ) : ℕ :=
  let u := f32unit 64 n
  let q := n / u
  let r := n % u
  if 2 * r < u then q * u
  else if u < 2 * r then (q + 1) * u
  else (if q % 2 = 0 then q else q + 1) * u

/-- The value of `astype('float32')` on an integer: round to the nearest
representable integer, ties to even. -/
def roundF32 : ℤ → ℤ
  | Int.ofNat n => Int.ofNat (roundF32Nat n)
  | Int.negSucc n => -(Int.ofNat (roundF32Nat (n + 1)))

/-! ### 4×4 matrices over ℚ -/

/-- The matrix type produced by `load_transform` and consumed by the
coordinate updates: a 4×4 array of (exact) reals. -/
abbrev Mat4 := Matrix (Fin 4) (Fin 4) ℚ

/-- Assemble a 4×4 matrix from parsed rows (row-major), entry `0` out of
range; used only where the surrounding code has checked the shape. -/
def mat4OfRows (rows : List (List ℚ)) : Mat4 :=
  Matrix.of fun i j => ((rows.getD i []).getD j 0)

/-- Explicit cofactor expansion of the 4×4 determinant; the executable
mirror of the singularity test behind `np.linalg.inv`. -/
def det4 (M : Mat4) : ℚ :=
  M 0 0 *
      (M 1 1 * (M 2 2 * M 3 3 - M 2 3 * M 3 2) - M 1 2 * (M 2 1 * M 3 3 - M 2 3 * M 3 1) +
        M 1 3 * (M 2 1 * M 3 2 - M 2 2 * M 3 1)) -
    M 0 1 *
      (M 1 0 * (M 2 2 * M 3 3 - M 2 3 * M 3 2) - M 1 2 * (M 2 0 * M 3 3 - M 2 3 * M 3 0) +
        M 1 3 * (M 2 0 * M 3 2 - M 2 2 * M 3 0)) +
    M 0 2 *
      (M 1 0 * (M 2 1 * M 3 3 - M 2 3 * M 3 1) - M 1 1 * (M 2 0 * M 3 3 - M 2 3 * M 3 0) +
        M 1 3 * (M 2 0 * M 3 1 - M 2 1 * M 3 0)) -
    M 0 3 *
      (M 1 0 * (M 2 1 * M 3 2 - M 2 2 * M 3 1) - M 1 1 * (M 2 0 * M 3 2 - M 2 2 * M 3 0) +
        M 1 2 * (M 2 0 * M 3 1 - M 2 1 * M 3 0))

/-- The 4×4 inverse, `np.linalg.inv` in exact arithmetic: adjugate divided by
the determinant (meaningful when `det4 M ≠ 0`; `np.linalg.inv` raises
`LinAlgError` exactly when the matrix is singular, which callers below guard
with `det4 M = 0` tests). -/
def inv4 (M : Mat4) : Mat4 :=
  (det4 M)⁻¹ • M.adjugate

/-! ### `load_transform`

`load_transform(fname)` (surfs.py lines 90–114): `None` gives the identity;
a path ending in `.mat` is read with `np.loadtxt`; a path ending in `.lta` is
scanned for the first line starting with `1 4 4`, and the following (at most
four) lines are read with `np.genfromtxt`; any other extension raises
`ValueError`.  The result is embedded at the level numpy works at — a list of
numeric rows whose shape is whatever the file provided (`loadtxt`/`genfromtxt`
do not validate a 4×4 shape, and on fully empty input they warn and return an
empty array rather than raising).  `none` embeds the exceptions numpy does
raise: unparsable tokens (`loadtxt`), ragged rows, unknown extension. -/

/-- Suffix test on strings via their character lists. -/
def strEndsWith (s suf : String) : Bool :=
  suf.data.isSuffixOf s.data

/-- The characters of a line before any `#` comment. -/
def stripComment (s : String) : List Char :=
  s.data.takeWhile (fun c => c ≠ '#')

/-- Model of `np.loadtxt` on a list of text lines: drop comments, skip blank
lines, parse each remaining line as a row of decimals; fail on an unparsable
token or ragged rows; an input with no data rows yields the empty matrix
(numpy only warns). -/
def loadtxtRows (ls : List String) : Option (List (List ℚ)) :=
  match ((ls.map (fun l => (splitWsAux (stripComment l) []).map String.mk)).filter
      (fun ts => !ts.isEmpty)).mapM (fun ts => ts.mapM parseDec) with
  | none => none
  | some rows =>
    match rows with
    | [] => some []
    | r :: rs => if rs.all (fun x => x.length = r.length) then some (r :: rs) else none

/-- Does this line begin with the literal characters `1 4 4`?  (`load_transform`
tests `line.startswith(b'1 4 4')`.) -/
def startsWith144 (l : String) : Bool :=
  "1 4 4".data.isPrefixOf l.data

/-- Model of the `.lta` branch of `load_transform`: consume lines up to and
including the first `1 4 4` marker, take at most the next four lines, and read
them with `np.genfromtxt` (consistent-width numeric rows; an empty remainder —
in particular a file with no marker at all — yields the empty matrix with only
a warning). -/
def ltaScanRows (ls : List String) : Option (List (List ℚ)) :=
  match (((ls.dropWhile (fun l => !startsWith144 l)).drop 1).take 4).mapM parseRow with
  | none => none
  | some rows =>
    match rows with
    | [] => some []
    | r :: rs => if rs.all (fun x => x.length = r.length) then some (r :: rs) else none

/-- Identity transform as rows, `np.eye(4)`. -/
def eyeRows : List (List ℚ) :=
  [[1, 0, 0, 0], [0, 1, 0, 0], [0, 0, 1, 0], [0, 0, 0, 1]]

/-- `load_transform`: the transform-file argument is `none` for Python `None`,
otherwise the pair of the path and the file's lines. -/
def load_transform : Option (String × List String) → Option (List (List ℚ))
  | none => some eyeRows
  | some (path, ls) =>
    if strEndsWith path ".mat" then loadtxtRows ls
    else if strEndsWith path ".lta" then ltaScanRows ls
    else none

/-! ### The mesh model

A GIFTI surface as the two operations see it: the pointset coordinates, the
triangle index triples, and the pointset's ordered metadata key/value list
(`normalize_surfs` walks it as a list; `surf2surf` reads it through the dict
view, which coincides for the distinct-key meshes these files are).  The
coordinate-system descriptor that `surf2surf` rewrites to fixed constants is
not modelled: no claim mentions it. -/

structure Mesh where
  coords : List (ℚ × ℚ × ℚ)
  faces : List (ℤ × ℤ × ℤ)
  meta : List (String × String)
deriving DecidableEq

/-- First value stored under a key, the reading model of both
`pointset.metadata.get(key, …)` and the `meta[v]` dict lookups. -/
def lookupMeta (meta : List (String × String)) (k : String) : Option String :=
  (meta.find? (fun p => p.1 == k)).map Prod.snd

/-- Does some entry carry this key? -/
def hasKey (meta : List (String × String)) (k : String) : Bool :=
  meta.any (fun p => p.1 == k)

/-- The three volume-geometry-center keys, in the order the code lists them. -/
def c_ras_keys : List String :=
  ["VolGeomC_R", "VolGeomC_A", "VolGeomC_S"]

/-- One offset component in `normalize_surfs`:
`float(pointset.metadata.get(key, 0.0))` — `0` when the key is absent, the
parsed value when present (failure to parse raises). -/
def getRasComp (meta : List (String × String)) (k : String) : Option ℚ :=
  match lookupMeta meta k with
  | none => some 0
  | some s => parseDec s

/-- The full offset 3-vector of `normalize_surfs`. -/
def getRas (meta : List (String × String)) : Option (ℚ × ℚ × ℚ) := do
  let r ← getRasComp meta "VolGeomC_R"
  let a ← getRasComp meta "VolGeomC_A"
  let s ← getRasComp meta "VolGeomC_S"
  some (r, a, s)

/-! ### `normalize_surfs` (Operation A), surfs.py lines 117–157 -/

/-- Dot product of one transform row with the homogeneous vector
`(x, y, z, 1)` of a vertex. -/
def rowDotH (r : List ℚ) (v : ℚ × ℚ × ℚ) : ℚ :=
  r.getD 0 0 * v.1 + r.getD 1 0 * v.2.1 + r.getD 2 0 * v.2.2 + r.getD 3 0

/-- One vertex of `transform.dot(np.vstack((coords + ras, ones)))[:3].T`: rows
`0‥2` of the transform applied to the homogeneous vertex. -/
def applyRowsTop3 (rows : List (List ℚ)) (v : ℚ × ℚ × ℚ) : ℚ × ℚ × ℚ :=
  (rowDotH (rows.getD 0 []) v, rowDotH (rows.getD 1 []) v, rowDotH (rows.getD 2 []) v)

/-- Shapes of loaded transforms for which the numpy pipeline
`transform.dot(vstack)[:3].T` runs without a shape error and produces
3-vectors: at least three rows, each of width 4 (a 4-wide matrix with `k ≥ 3`
rows multiplies the 4×N stack and `[:3]` keeps the top three rows; an empty
array or wrong-width rows raise a shape `ValueError`; the degenerate `k < 3`
widths that would yield shorter coordinate tuples are outside the model). -/
def rowsUsable (rows : List (List ℚ)) : Bool :=
  decide (3 ≤ rows.length) && rows.all (fun r => r.length = 4)

/-- ASCII lower-casing of one character, the fragment of `str.lower` these
file names exercise. -/
def lowerChar (c : Char) : Char :=
  if 'A' ≤ c ∧ c ≤ 'Z' then Char.ofNat (c.toNat + 32) else c

/-- Characters of `fname.lower()`. -/
def lowerStr (s : String) : List Char :=
  s.data.map lowerChar

/-- Does the lower-cased file name contain `midthickness` or `graymid`? -/
def isMidName (fname : String) : Bool :=
  decide ("midthickness".data <:+: lowerStr fname) ||
    decide ("graymid".data <:+: lowerStr fname)

/-- Python `list.insert(i, a)`: insert before position `i`, clamping to the
end when `i` exceeds the length. -/
def pyInsert (i : ℕ) (a : α) (l : List α) : List α :=
  l.take i ++ a :: l.drop i

/-- The two structural metadata entries `normalize_surfs` may add. -/
def secondaryNV : String × String := ("AnatomicalStructureSecondary", "MidThickness")

/-- The `GeometricType` entry. -/
def geomTypeNV : String × String := ("GeometricType", "Anatomical")

/-- The value-zeroing sweep over the metadata list: every entry keyed by one
of the three geometry-center keys has its value set to the literal string
`"0.000000"`; names and order are untouched. -/
def zeroCras (meta : List (String × String)) : List (String × String) :=
  meta.map (fun p => if p.1 ∈ c_ras_keys then (p.1, "0.000000") else p)

/-- The whole metadata pass of `normalize_surfs` (lines 137–155): zero the
geometry-center values, and for `midthickness`/`graymid` file names insert the
two structural entries at positions 1 and 2 when their keys are absent
(`has_ass`/`has_geo` are computed from the original entries in the same
loop that zeroes the values). -/
def metaStage (fname : String) (meta : List (String × String)) : List (String × String) :=
  let z := zeroCras meta
  if isMidName fname then
    let z1 := if hasKey meta secondaryNV.1 then z else pyInsert 1 secondaryNV z
    if hasKey meta geomTypeNV.1 then z1 else pyInsert 2 geomTypeNV z1
  else z

/-- Operation A.  `fname` is the base name of the input file (the code derives
it with `os.path.basename` and uses it both for the metadata rule and as the
output name).  Returns the mesh as serialized, `none` when the call raises
before writing (bad transform file, unparsable offset value, shape error). -/
def normalize_surfs (fname : String) (xfm : Option (String × List String)) (m : Mesh) :
    Option Mesh := do
  let rows ← load_transform xfm
  let ras ← getRas m.meta
  if rowsUsable rows then
    some { coords := m.coords.map (fun v => applyRowsTop3 rows (v + ras)),
           faces := m.faces,
           meta := metaStage fname m.meta }
  else none

/-! ### `surf2surf` (Operation B), surfs.py lines 160–214, and its
`ApplyLTATransform` interface wrapper (lines 66–87) -/

/-- The matrix-reading step of `surf2surf`: parse lines `5‥8` of the LTA file
(`xfmfile.readlines()[5:9]`, one `np.fromstring` per line) — fixed positions,
with no scan for the `1 4 4` marker. -/
def fixedLtaRows (ls : List String) : Option (List (List ℚ)) :=
  ((ls.drop 5).take 4).mapM parseRow

/-- The matrix `surf2surf` applies to the vertices: the fixed-position rows,
shaped into a 4×4 matrix (anything but a full 4×4 makes the subsequent
`np.linalg.inv`/`dot` raise), inverted when `invert` is set
(`np.linalg.inv` raises `LinAlgError` on a singular matrix). -/
def surf2surfXfm (ls : List String) (invert : Bool) : Option Mat4 := do
  let rows ← fixedLtaRows ls
  if rows.length = 4 ∧ rows.all (fun r => r.length = 4) then
    let M := mat4OfRows rows
    if invert then
      if det4 M = 0 then none else some (inv4 M)
    else some M
  else none

/-- Rows `0‥2` of `M · (x, y, z, 1)`: one vertex of
`xfm.dot(np.hstack((coords, ones)).T).T[..., :3]`. -/
def homogApply (M : Mat4) (v : ℚ × ℚ × ℚ) : ℚ × ℚ × ℚ :=
  (M 0 0 * v.1 + M 0 1 * v.2.1 + M 0 2 * v.2.2 + M 0 3,
   M 1 0 * v.1 + M 1 1 * v.2.1 + M 1 2 * v.2.2 + M 1 3,
   M 2 0 * v.1 + M 2 1 * v.2.1 + M 2 2 * v.2.2 + M 2 3)

/-- Python dict assignment `meta[k] = v` seen through the ordered entry list:
replace the value in place when the key exists, append otherwise. -/
def setKV (meta : List (String × String)) (k v : String) : List (String × String) :=
  if hasKey meta k then meta.map (fun p => if p.1 == k then (k, v) else p)
  else meta ++ [(k, v)]

/-- The face array of the output: `surf2surf` rebuilds the triangle data array
as `darrays[1].data.astype('float32')`. -/
def facesF32 (faces : List (ℤ × ℤ × ℤ)) : List (ℤ × ℤ × ℤ) :=
  faces.map (fun f => (roundF32 f.1, roundF32 f.2.1, roundF32 f.2.2))

/-- Operation B.  Reads the matrix from fixed lines of the LTA file, optionally
inverts it, applies it to all vertices; with `center` set, reads the three
geometry-center values from the (still unmodified) metadata — a missing key is
a `KeyError`, an unparsable value a `ValueError` — adds that offset to the
already-transformed coordinates, and zeroes the three values (`'%f' % 0.0`,
i.e. `"0.000000"`).  Faces are narrowed to float32. -/
def surf2surf (ls : List String) (invert : Bool) (m : Mesh) (center : Bool) :
    Option Mesh := do
  let M ← surf2surfXfm ls invert
  let newcoords := m.coords.map (homogApply M)
  if center then do
    let sR ← lookupMeta m.meta "VolGeomC_R"
    let sA ← lookupMeta m.meta "VolGeomC_A"
    let sS ← lookupMeta m.meta "VolGeomC_S"
    let r ← parseDec sR
    let a ← parseDec sA
    let s ← parseDec sS
    some { coords := newcoords.map (fun v => v + (r, a, s)),
           faces := facesF32 m.faces,
           meta := setKV (setKV (setKV m.meta "VolGeomC_R" "0.000000")
                     "VolGeomC_A" "0.000000") "VolGeomC_S" "0.000000" }
  else
    some { coords := newcoords, faces := facesF32 m.faces, meta := m.meta }

/-- The Python default of `surf2surf`'s `invert` keyword. -/
def surf2surfInvertDefault : Bool := true

/-- The Python default of `ApplyLTATransform`'s `absolute_coords` input trait. -/
def absoluteCoordsDefault : Bool := true

/-- `ApplyLTATransform._run_interface`: calls `surf2surf` with the in-file, the
transform file and `center=absolute_coords`, passing no `invert` argument, so
the `invert` default applies; the interface exposes no input that could reach
`invert`. -/
def applyLTATransform (ls : List String) (m : Mesh) (absolute : Bool) : Option Mesh :=
  surf2surf ls surf2surfInvertDefault m absolute

/-- The matrix `ApplyLTATransform` ends up applying. -/
def applyLTAXfm (ls : List String) : Option Mat4 :=
  surf2surfXfm ls surf2surfInvertDefault

/-! ### Concrete fixtures for witnesses and counterexamples -/

/-- A well-formed LTA file: four header lines, the `1 4 4` marker as the
fifth line (index 4), then the four matrix rows — the layout FreeSurfer
emits, for which the marker block and lines 5‥8 coincide. -/
def ltaStdLines : List String :=
  ["# transform file", "type      = 1", "nxforms   = 1", "mean      = 0.0 0.0 0.0",
   "1 4 4", "1 0 0 5", "0 1 0 0", "0 0 1 0", "0 0 0 1"]

/-- The matrix rows stored in `ltaStdLines`. -/
def ltaStdRows : List (List ℚ) :=
  [[1, 0, 0, 5], [0, 1, 0, 0], [0, 0, 1, 0], [0, 0, 0, 1]]

/-- An LTA file whose `1 4 4` marker sits at line index 3 instead of 4 (one
header line fewer than `ltaStdLines`): still a perfectly well-formed LTA file
for the marker-scanning reader. -/
def ltaShiftLines : List String :=
  ["type      = 1", "nxforms   = 1", "mean      = 0.0 0.0 0.0",
   "1 4 4", "2 0 0 0", "0 1 0 0", "0 0 1 0", "0 0 0 1", "9 9 9 9"]

/-- An LTA file containing no `1 4 4` marker at all. -/
def ltaNoMarkerLines : List String :=
  ["# transform file", "type      = 1", "sigma     = 1.0"]

/-- An FSL-style `.mat` file with only two numeric rows. -/
def matTwoRowLines : List String :=
  ["1 0 0 5", "0 1 0 0"]

/-- A small mesh with all three geometry-center keys present. -/
def meshA : Mesh :=
  { coords := [(1, 2, 3), (0, 0, 0)], faces := [(0, 1, 2)],
    meta := [("VolGeomC_R", "1.5"), ("VolGeomC_A", "-2"), ("VolGeomC_S", "0.000000")] }

/-- A mesh whose `VolGeomC_A` key is absent. -/
def meshNoA : Mesh :=
  { coords := [(1, 2, 3)], faces := [(0, 1, 2)],
    meta := [("VolGeomC_R", "1.5"), ("VolGeomC_S", "0.25")] }

/-- A mesh containing a face index above `2^25` (legal for `int32` triangle
data) that is not representable in float32. -/
def meshBigFace : Mesh :=
  { coords := [(0, 0, 0), (1, 0, 0), (0, 1, 0)], faces := [(33554433, 0, 1)],
    meta := [] }

/-- An FSL-style `.mat` file with the full four rows. -/
def matStdLines : List String :=
  ["1 0 0 5", "0 1 0 0", "0 0 1 0", "0 0 0 1"]

/-- The output of Operation A on `meshA` under the name `lh.pial.gii` with no
transform file: coordinates shifted by the (1.5, −2, 0) offset, metadata
zeroed, faces untouched. -/
def meshA_normA : Mesh :=
  { coords := [(5/2, 0, 3), (3/2, -2, 0)], faces := [(0, 1, 2)],
    meta := [("VolGeomC_R", "0.000000"), ("VolGeomC_A", "0.000000"),
             ("VolGeomC_S", "0.000000")] }

/-- The output of Operation B on `meshA` with the `ltaStdLines` transform,
`invert=False`, `center=False`. -/
def meshA_xfmPlain : Mesh :=
  { coords := [(6, 2, 3), (5, 0, 0)], faces := [(0, 1, 2)],
    meta := [("VolGeomC_R", "1.5"), ("VolGeomC_A", "-2"), ("VolGeomC_S", "0.000000")] }

/-- The output of Operation B on `meshA` with the `ltaStdLines` transform,
`invert=False`, `center=True`: the offset lands after the matrix, and the
three geometry-center values are zeroed. -/
def meshA_xfmCentered : Mesh :=
  { coords := [(15/2, 0, 3), (13/2, -2, 0)], faces := [(0, 1, 2)],
    meta := [("VolGeomC_R", "0.000000"), ("VolGeomC_A", "0.000000"),
             ("VolGeomC_S", "0.000000")] }

/-- Mostly everything below `2^24` is exact; this is the regime of real
surface meshes (fewer than 16.7M vertices). -/
theorem roundF32_eq_of_small (z : ℤ) (h : z.natAbs < 2 ^ 24) : roundF32 z = z := by
  have hunit : ∀ n : ℕ, n < 2 ^ 24 → roundF32Nat n = n := by
    intro n hn
    simp only [roundF32Nat, f32unit, if_pos hn]
    norm_num [Nat.mod_one]
  cases z with
  | ofNat n => simpa [roundF32] using hunit n (by simpa [Int.natAbs] using h)
  | negSucc n =>
      have := hunit (n + 1) (by simpa [Int.natAbs] using h)
      simp [roundF32, this, Int.negSucc_eq]

/-- The explicit expansion `det4` is the determinant. -/
theorem det4_eq (M : Mat4) : det4 M = M.det := by
  simp only [Matrix.det_succ_row_zero, ← Nat.not_even_iff_odd, Matrix.submatrix_apply,
    Fin.succ_zero_eq_one, Matrix.submatrix_submatrix, Matrix.det_unique, Fin.default_eq_zero,
    Function.comp_apply, Fin.succ_one_eq_two, Fin.sum_univ_succ, Fin.val_zero, Fin.zero_succAbove,
    Finset.univ_unique, Fin.val_succ, Fin.val_eq_zero, Fin.succ_succAbove_zero,
    Finset.sum_singleton, Fin.succ_succAbove_one, even_add_self]
  simp only [show (Fin.succ 2 : Fin 4) = 3 from rfl,
    show Fin.castSucc (2 : Fin 3) = (2 : Fin 4) from rfl,
    show Fin.succAbove (2 : Fin 4) (2 : Fin 3) = 3 from rfl,
    show Fin.succAbove (1 : Fin 4) (2 : Fin 3) = 3 from rfl,
    show Fin.succAbove (3 : Fin 4) (2 : Fin 3) = 2 from rfl]
  norm_num [det4]
  ring

/-- On a nonsingular matrix, `inv4` is a genuine two-sided inverse — the
exact-arithmetic content of `np.linalg.inv`. -/
theorem inv4_mul (M : Mat4) (h : det4 M ≠ 0) : inv4 M * M = 1 ∧ M * inv4 M = 1 := by
  have hd : M.det ≠ 0 := by rw [← det4_eq]; exact h
  have hu : IsUnit M.det := isUnit_iff_ne_zero.mpr hd
  have hinv : inv4 M = M⁻¹ := by
    simp only [inv4, Matrix.inv_def, det4_eq, Ring.inverse_eq_inv]
  exact ⟨hinv ▸ Matrix.nonsing_inv_mul M hu, hinv ▸ Matrix.mul_nonsing_inv M hu⟩


/-! ### General lemmas about the embedded operations -/

/-- Parsing the zeroed metadata literal gives `0`. -/
theorem parseDec_zero_lit : parseDec "0.000000" = some 0 := by
  with_unfolding_all decide

/-- Over `Option`, `mapM` preserves length. -/
theorem length_of_mapM {α β : Type} (f : α → Option β) :
    ∀ (l : List α) (r : List β), l.mapM f = some r → r.length = l.length := by
  intro l
  induction l with
  | nil => intro r h; simp [List.mapM, List.mapM.loop] at h; simp [← h]
  | cons a t ih =>
      intro r h
      rw [List.mapM_cons] at h
      cases hf : f a with
      | none => rw [hf] at h; simp at h
      | some b =>
          rw [hf] at h
          cases ht : t.mapM f with
          | none => rw [ht] at h; simp at h
          | some rt =>
              rw [ht] at h
              simp at h
              simp [← h, ih rt ht]

/-- The first matching entry of an appended list. -/
theorem find?_append {α : Type} (p : α → Bool) (l₁ l₂ : List α) :
    (l₁ ++ l₂).find? p = ((l₁.find? p).orElse (fun _ => l₂.find? p)) := by
  induction l₁ with
  | nil => simp
  | cons a t ih =>
      by_cases h : p a = true
      · simp [List.find?, h]
      · simp only [Bool.not_eq_true] at h
        simp [List.find?, h, ih]

/-- Inserting an entry under a different key does not change a lookup. -/
theorem lookupMeta_pyInsert_other (meta : List (String × String)) (i : ℕ)
    (p : String × String) (k : String) (h : (p.1 == k) = false) :
    lookupMeta (pyInsert i p meta) k = lookupMeta meta k := by
  unfold lookupMeta pyInsert
  rw [find?_append]
  simp only [List.find?, h]
  rw [← find?_append, List.take_append_drop]

/-- After the zeroing sweep, every geometry-center component reads back as
`0`: a present key now stores `"0.000000"`, an absent key defaults to `0`. -/
theorem getRasComp_zeroCras (meta : List (String × String)) (k : String)
    (hk : k ∈ c_ras_keys) : getRasComp (zeroCras meta) k = some 0 := by
  induction meta with
  | nil => simp [getRasComp, zeroCras, lookupMeta]
  | cons p t ih =>
      by_cases hpk : (p.1 == k) = true
      · have hp1 : p.1 = k := by simpa [beq_iff_eq] using hpk
        have hmem : p.1 ∈ c_ras_keys := hp1 ▸ hk
        simp [getRasComp, zeroCras, lookupMeta, List.find?, hmem, hpk, parseDec_zero_lit]
      · simp only [Bool.not_eq_true] at hpk
        by_cases hmem : p.1 ∈ c_ras_keys <;>
          simpa [getRasComp, zeroCras, lookupMeta, List.find?, hmem, hpk] using ih

/-- Inserting an entry under a different key does not change a geometry-center
read. -/
theorem getRasComp_pyInsert_other (meta : List (String × String)) (i : ℕ)
    (p : String × String) (k : String) (h : (p.1 == k) = false) :
    getRasComp (pyInsert i p meta) k = getRasComp meta k := by
  unfold getRasComp
  rw [lookupMeta_pyInsert_other _ _ _ _ h]

/-- Looking a geometry-center key up through the whole metadata pass of
`normalize_surfs` gives `0`: the two structural entries it may insert carry
different keys, and the zeroing sweep handles the rest. -/
theorem getRasComp_metaStage (fname : String) (meta : List (String × String))
    (k : String) (hk : k ∈ c_ras_keys) :
    getRasComp (metaStage fname meta) k = some 0 := by
  have hk' : k = "VolGeomC_R" ∨ k = "VolGeomC_A" ∨ k = "VolGeomC_S" := by
    simpa [c_ras_keys] using hk
  have hsec : (secondaryNV.1 == k) = false := by
    rcases hk' with h | h | h <;> subst h <;> decide
  have hgeo : (geomTypeNV.1 == k) = false := by
    rcases hk' with h | h | h <;> subst h <;> decide
  have hz := getRasComp_zeroCras meta k hk
  unfold metaStage
  by_cases hmid : isMidName fname = true
  · by_cases ha : hasKey meta secondaryNV.1 = true <;>
      by_cases hg : hasKey meta geomTypeNV.1 = true <;>
      simp only [hmid, ha, hg, if_true, if_false, Bool.false_eq_true, if_neg,
        Bool.not_eq_true, ite_true, ite_false,
        getRasComp_pyInsert_other _ _ _ _ hsec, getRasComp_pyInsert_other _ _ _ _ hgeo] <;>
      exact hz
  · simp only [Bool.not_eq_true] at hmid
    simpa [hmid] using hz

/-- The rows-level coordinate update of `normalize_surfs` is the matrix
product with the homogeneous vertex: the bridge between the numpy `dot` and
the 4×4 affine map. -/
theorem applyRowsTop3_eq_homog (rows : List (List ℚ)) (v : ℚ × ℚ × ℚ) :
    applyRowsTop3 rows v = homogApply (mat4OfRows rows) v := rfl

/-- The identity rows really are the identity matrix. -/
theorem mat4OfRows_eye : mat4OfRows eyeRows = (1 : Mat4) := by
  ext i j
  fin_cases i <;> fin_cases j <;> rfl

/-- Applying the identity rows moves nothing. -/
theorem applyRowsTop3_eye (v : ℚ × ℚ × ℚ) : applyRowsTop3 eyeRows v = v := by
  obtain ⟨x, y, z⟩ := v
  simp only [applyRowsTop3, rowDotH, eyeRows]
  norm_num

/-- Applying the identity matrix in homogeneous coordinates moves nothing. -/
theorem homogApply_one (v : ℚ × ℚ × ℚ) : homogApply 1 v = v := by
  obtain ⟨x, y, z⟩ := v
  simp [homogApply, Matrix.one_apply]

/-- Over `Option`, `mapM` after `map` fuses. -/
theorem mapM_map {α β γ : Type} (f : α → β) (g : β → Option γ) (l : List α) :
    (l.map f).mapM g = l.mapM (fun a => g (f a)) := by
  induction l with
  | nil => rfl
  | cons a t ih => rw [List.map_cons, List.mapM_cons, List.mapM_cons, ih]

/-- A path with the LTA extension does not have the FSL one, so the `.lta`
branch of `load_transform`'s dispatch is the one taken. -/
theorem lta_not_mat (p : String) (h : strEndsWith p ".lta" = true) :
    strEndsWith p ".mat" = false := by
  by_contra hm
  simp only [Bool.not_eq_false] at hm
  have h' : ".lta".data <:+ p.data := List.isSuffixOf_iff_suffix.mp h
  have hm' : ".mat".data <:+ p.data := List.isSuffixOf_iff_suffix.mp hm
  have : ".lta".data = ".mat".data := by
    rcases List.suffix_or_suffix_of_suffix h' hm' with hs | hs
    · exact hs.eq_of_length (by decide)
    · exact (hs.eq_of_length (by decide)).symm
  simp at this

/-- Setting a key stores its new value where the lookup finds it. -/
theorem lookupMeta_setKV_self (meta : List (String × String)) (k v : String) :
    lookupMeta (setKV meta k v) k = some v := by
  unfold setKV
  by_cases h : hasKey meta k = true
  · rw [if_pos h]
    unfold hasKey at h
    induction meta with
    | nil => simp at h
    | cons p t ih =>
        by_cases hp : (p.1 == k) = true
        · simp [lookupMeta, List.find?, hp]
        · simp only [Bool.not_eq_true] at hp
          have ht : t.any (fun p => p.1 == k) = true := by
            simpa [List.any_cons, hp] using h
          simpa [lookupMeta, List.find?, hp] using ih ht
  · rw [if_neg h]
    unfold lookupMeta
    rw [find?_append]
    have hnone : meta.find? (fun p => p.1 == k) = none := by
      rw [List.find?_eq_none]
      intro q hq hcontra
      have hkey : hasKey meta k = true := by
        unfold hasKey
        rw [List.any_eq_true]
        exact ⟨q, hq, hcontra⟩
      exact h hkey
    simp [hnone, List.find?]

/-- Setting one key leaves lookups of any other key unchanged. -/
theorem lookupMeta_setKV_other (meta : List (String × String)) (k v k2 : String)
    (hne : (k == k2) = false) :
    lookupMeta (setKV meta k v) k2 = lookupMeta meta k2 := by
  have hmap : ∀ l : List (String × String),
      lookupMeta (l.map (fun p => if p.1 == k then (k, v) else p)) k2 = lookupMeta l k2 := by
    intro l
    induction l with
    | nil => rfl
    | cons p t ih =>
        by_cases hp : (p.1 == k) = true
        · have hp1 : p.1 = k := by simpa [beq_iff_eq] using hp
          have hp2 : (p.1 == k2) = false := by rw [hp1]; exact hne
          simpa [lookupMeta, List.find?, hp, hp2, hne] using ih
        · simp only [Bool.not_eq_true] at hp
          by_cases hp2 : (p.1 == k2) = true
          · simp [lookupMeta, List.find?, hp, hp2]
          · simp only [Bool.not_eq_true] at hp2
            simpa [lookupMeta, List.find?, hp, hp2] using ih
  unfold setKV
  by_cases h : hasKey meta k = true
  · rw [if_pos h]
    exact hmap meta
  · rw [if_neg h]
    unfold lookupMeta
    rw [find?_append]
    cases hf : meta.find? (fun p => p.1 == k2) with
    | some q => simp [hf]
    | none => simp [hf, List.find?, hne]

/-- Success shape of `normalize_surfs`: what the output mesh is when the
operation completes, given the loaded rows and the parsed offset. -/
theorem normalize_surfs_eq_some (fname : String) (xfm : Option (String × List String))
    (m out : Mesh) (rows : List (List ℚ)) (ras : ℚ × ℚ × ℚ)
    (hload : load_transform xfm = some rows)
    (hras : getRas m.meta = some ras)
    (hrun : normalize_surfs fname xfm m = some out) :
    rowsUsable rows = true ∧
    out = { coords := m.coords.map (fun v => applyRowsTop3 rows (v + ras)),
            faces := m.faces, meta := metaStage fname m.meta } := by
  unfold normalize_surfs at hrun
  rw [hload, hras] at hrun
  simp only [Option.bind_eq_bind', Option.some_bind'] at hrun
  by_cases hU : rowsUsable rows = true
  · rw [if_pos hU] at hrun
    exact ⟨hU, (Option.some.injEq _ _ ▸ hrun).symm⟩
  · rw [if_neg hU] at hrun
    exact absurd hrun (by simp)

/-- Whenever `normalize_surfs` succeeds, the faces pass through untouched and
the vertex count is preserved. -/
theorem normalize_surfs_shape (fname : String) (xfm : Option (String × List String))
    (m out : Mesh) (hrun : normalize_surfs fname xfm m = some out) :
    out.faces = m.faces ∧ out.coords.length = m.coords.length := by
  unfold normalize_surfs at hrun
  cases hload : load_transform xfm with
  | none => rw [hload] at hrun; simp at hrun
  | some rows =>
      rw [hload] at hrun
      cases hras : getRas m.meta with
      | none => rw [hras] at hrun; simp at hrun
      | some ras =>
          rw [hras] at hrun
          simp only [Option.bind_eq_bind', Option.some_bind'] at hrun
          by_cases hU : rowsUsable rows = true
          · rw [if_pos hU] at hrun
            obtain rfl := Option.some.inj hrun
            exact ⟨rfl, by simp⟩
          · rw [if_neg hU] at hrun
            simp at hrun

/-- Success shape of `surf2surf` without recentring. -/
theorem surf2surf_eq_some_plain (ls : List String) (invert : Bool) (m out : Mesh)
    (M : Mat4) (hx : surf2surfXfm ls invert = some M)
    (hrun : surf2surf ls invert m false = some out) :
    out = { coords := m.coords.map (homogApply M),
            faces := facesF32 m.faces, meta := m.meta } := by
  unfold surf2surf at hrun
  rw [hx] at hrun
  simp only [Option.bind_eq_bind', Option.some_bind', Bool.false_eq_true, if_false] at hrun
  exact (Option.some.inj hrun).symm

/-- Success shape of `surf2surf` with recentring: the offset is read from the
original metadata and added after the matrix, and the three values are set to
`"0.000000"`. -/
theorem surf2surf_eq_some_center (ls : List String) (invert : Bool) (m out : Mesh)
    (M : Mat4) (sR sA sS : String) (r a s : ℚ)
    (hx : surf2surfXfm ls invert = some M)
    (hR : lookupMeta m.meta "VolGeomC_R" = some sR) (hr : parseDec sR = some r)
    (hA : lookupMeta m.meta "VolGeomC_A" = some sA) (ha : parseDec sA = some a)
    (hS : lookupMeta m.meta "VolGeomC_S" = some sS) (hs : parseDec sS = some s)
    (hrun : surf2surf ls invert m true = some out) :
    out = { coords := m.coords.map (fun v => homogApply M v + (r, a, s)),
            faces := facesF32 m.faces,
            meta := setKV (setKV (setKV m.meta "VolGeomC_R" "0.000000")
                      "VolGeomC_A" "0.000000") "VolGeomC_S" "0.000000" } := by
  unfold surf2surf at hrun
  rw [hx] at hrun
  simp only [Option.bind_eq_bind', Option.some_bind', if_true] at hrun
  rw [hR] at hrun
  simp only [Option.some_bind'] at hrun
  rw [hA] at hrun
  simp only [Option.some_bind'] at hrun
  rw [hS] at hrun
  simp only [Option.some_bind'] at hrun
  rw [hr] at hrun
  simp only [Option.some_bind'] at hrun
  rw [ha] at hrun
  simp only [Option.some_bind'] at hrun
  rw [hs] at hrun
  simp only [Option.some_bind'] at hrun
  rw [(Option.some.inj hrun).symm]
  simp [List.map_map, Function.comp]

/-- Whenever `surf2surf` succeeds, the face triples are exactly the float32
narrowing of the input triples and the vertex count is preserved. -/
theorem surf2surf_shape (ls : List String) (invert center : Bool) (m out : Mesh)
    (hrun : surf2surf ls invert m center = some out) :
    out.faces = facesF32 m.faces ∧ out.coords.length = m.coords.length := by
  unfold surf2surf at hrun
  cases hx : surf2surfXfm ls invert with
  | none => rw [hx] at hrun; simp at hrun
  | some M =>
      rw [hx] at hrun
      simp only [Option.bind_eq_bind', Option.some_bind'] at hrun
      cases center with
      | false =>
          simp only [Bool.false_eq_true, if_false] at hrun
          obtain rfl := Option.some.inj hrun
          exact ⟨rfl, by simp⟩
      | true =>
          simp only [if_true] at hrun
          cases hR : lookupMeta m.meta "VolGeomC_R" <;> rw [hR] at hrun <;>
            simp only [Option.none_bind', Option.some_bind'] at hrun
          case none => exact absurd hrun (by simp)
          case some sR =>
          cases hA : lookupMeta m.meta "VolGeomC_A" <;> rw [hA] at hrun <;>
            simp only [Option.none_bind', Option.some_bind'] at hrun
          case none => exact absurd hrun (by simp)
          case some sA =>
          cases hS : lookupMeta m.meta "VolGeomC_S" <;> rw [hS] at hrun <;>
            simp only [Option.none_bind', Option.some_bind'] at hrun
          case none => exact absurd hrun (by simp)
          case some sS =>
          cases hr : parseDec sR <;> rw [hr] at hrun <;>
            simp only [Option.none_bind', Option.some_bind'] at hrun
          case none => exact absurd hrun (by simp)
          case some r =>
          cases ha : parseDec sA <;> rw [ha] at hrun <;>
            simp only [Option.none_bind', Option.some_bind'] at hrun
          case none => exact absurd hrun (by simp)
          case some a =>
          cases hs : parseDec sS <;> rw [hs] at hrun <;>
            simp only [Option.none_bind', Option.some_bind'] at hrun
          case none => exact absurd hrun (by simp)
          case some s =>
          obtain rfl := Option.some.inj hrun
          exact ⟨rfl, by simp⟩

/-- With `center` set and any of the three geometry-center keys absent from
the metadata, `surf2surf` fails (the dict lookup raises `KeyError`), whatever
else the inputs are. -/
theorem surf2surf_center_missing (ls : List String) (invert : Bool) (m : Mesh)
    (k : String) (hk : k ∈ c_ras_keys) (hmiss : lookupMeta m.meta k = none) :
    surf2surf ls invert m true = none := by
  unfold surf2surf
  cases hx : surf2surfXfm ls invert with
  | none => rfl
  | some M =>
      simp only [Option.bind_eq_bind', Option.some_bind', if_true]
      have hk' : k = "VolGeomC_R" ∨ k = "VolGeomC_A" ∨ k = "VolGeomC_S" := by
        simpa [c_ras_keys] using hk
      rcases hk' with h | h | h <;> subst h
      · rw [hmiss]; rfl
      · cases hR : lookupMeta m.meta "VolGeomC_R" <;>
          simp [hR, hmiss]
      · cases hR : lookupMeta m.meta "VolGeomC_R" <;>
          cases hA : lookupMeta m.meta "VolGeomC_A" <;>
            simp [hR, hA, hmiss]

/-- Zeroing preserves each entry's key. -/
theorem hasKey_zeroCras (meta : List (String × String)) (k : String) :
    hasKey (zeroCras meta) k = hasKey meta k := by
  induction meta with
  | nil => rfl
  | cons p t ih =>
      unfold hasKey zeroCras at ih ⊢
      by_cases hmem : p.1 ∈ c_ras_keys <;>
        simp [List.any_cons, hmem, ih]

/-- An inserted entry's key is present afterwards. -/
theorem hasKey_pyInsert_self (meta : List (String × String)) (i : ℕ)
    (p : String × String) : hasKey (pyInsert i p meta) p.1 = true := by
  unfold hasKey pyInsert
  simp

/-- Insertion never removes a key. -/
theorem hasKey_pyInsert_mono (meta : List (String × String)) (i : ℕ)
    (p : String × String) (k : String) (h : hasKey meta k = true) :
    hasKey (pyInsert i p meta) k = true := by
  unfold hasKey at h ⊢
  unfold pyInsert
  rw [List.any_eq_true] at h ⊢
  obtain ⟨q, hq, hqk⟩ := h
  refine ⟨q, ?_, hqk⟩
  have hq2 : q ∈ meta.take i ++ meta.drop i := by
    rw [List.take_append_drop]; exact hq
  rcases List.mem_append.mp hq2 with hin | hin
  · exact List.mem_append.mpr (Or.inl hin)
  · exact List.mem_append.mpr (Or.inr (List.mem_cons_of_mem _ hin))

/-- The zeroing sweep is idempotent. -/
theorem zeroCras_zeroCras (meta : List (String × String)) :
    zeroCras (zeroCras meta) = zeroCras meta := by
  unfold zeroCras
  rw [List.map_map]
  apply List.map_congr_left
  intro p _
  by_cases hmem : p.1 ∈ c_ras_keys <;> simp [Function.comp, hmem]

/-- The zeroing sweep passes over an inserted non-geometry entry. -/
theorem zeroCras_pyInsert (meta : List (String × String)) (i : ℕ)
    (p : String × String) (hp : p.1 ∉ c_ras_keys) :
    zeroCras (pyInsert i p meta) = pyInsert i p (zeroCras meta) := by
  unfold zeroCras pyInsert
  rw [List.map_append, List.map_cons, if_neg hp, List.map_take, List.map_drop]

/-- The whole metadata pass leaves an already-zeroed list alone: its
geometry-center values are all `"0.000000"` and both structural keys, once
present, stay present, so a second pass inserts nothing and re-zeroes
vacuously. -/
theorem zeroCras_metaStage (fname : String) (meta : List (String × String)) :
    zeroCras (metaStage fname meta) = metaStage fname meta := by
  have hsec : secondaryNV.1 ∉ c_ras_keys := by decide
  have hgeo : geomTypeNV.1 ∉ c_ras_keys := by decide
  unfold metaStage
  by_cases hmid : isMidName fname = true
  · by_cases ha : hasKey meta secondaryNV.1 = true <;>
      by_cases hg : hasKey meta geomTypeNV.1 = true <;>
        simp [hmid, ha, hg, zeroCras_pyInsert, hsec, hgeo, zeroCras_zeroCras]
  · simp only [Bool.not_eq_true] at hmid
    simp only [hmid, Bool.false_eq_true, if_false]
    exact zeroCras_zeroCras meta

/-- After a first pass, both structural keys are present whenever the file
name carries the `midthickness`/`graymid` marker. -/
theorem metaStage_hasKeys (fname : String) (meta : List (String × String))
    (hmid : isMidName fname = true) :
    hasKey (metaStage fname meta) secondaryNV.1 = true ∧
    hasKey (metaStage fname meta) geomTypeNV.1 = true := by
  unfold metaStage
  by_cases ha : hasKey meta secondaryNV.1 = true <;>
    by_cases hg : hasKey meta geomTypeNV.1 = true <;>
      simp only [hmid, ha, hg, if_true, if_false, ite_true, ite_false,
        Bool.false_eq_true] <;>
      constructor <;>
      first
        | exact hasKey_pyInsert_self _ _ _
        | exact hasKey_pyInsert_mono _ _ _ _ (hasKey_pyInsert_self _ _ _)
        | exact hasKey_pyInsert_mono _ _ _ _ ((hasKey_zeroCras _ _).trans ha)
        | exact hasKey_pyInsert_mono _ _ _ _
            (hasKey_pyInsert_mono _ _ _ _ ((hasKey_zeroCras _ _).trans ha))
        | exact hasKey_pyInsert_mono _ _ _ _ ((hasKey_zeroCras _ _).trans hg)
        | exact (hasKey_zeroCras _ _).trans ha
        | exact (hasKey_zeroCras _ _).trans hg

/-- A second metadata pass changes nothing. -/
theorem metaStage_idem (fname : String) (meta : List (String × String)) :
    metaStage fname (metaStage fname meta) = metaStage fname meta := by
  by_cases hmid : isMidName fname = true
  · obtain ⟨ha, hg⟩ := metaStage_hasKeys fname meta hmid
    conv_lhs => rw [metaStage]
    simp [hmid, ha, hg, zeroCras_metaStage]
  · simp only [Bool.not_eq_true] at hmid
    conv_lhs => rw [metaStage]
    simp [hmid, zeroCras_metaStage, metaStage, zeroCras_zeroCras]

/-- Inserting an entry the filter rejects does not change the filtered list. -/
theorem filter_pyInsert (meta : List (String × String)) (i : ℕ)
    (p : String × String) (pred : String × String → Bool) (hp : pred p = false) :
    (pyInsert i p meta).filter pred = meta.filter pred := by
  unfold pyInsert
  rw [List.filter_append, List.filter_cons, hp]
  simp only [Bool.false_eq_true, if_false]
  rw [← List.filter_append, List.take_append_drop]

/-! ### The claims -/

/-- C1: for every input mesh, Operation A (`normalize_surfs`) sets each output
vertex to `transform · (original + offset)` — the offset read from the
`VolGeomC_R`/`VolGeomC_A`/`VolGeomC_S` metadata keys with `0` as the default
for an absent key (that is what `getRasComp` computes), the transform being
the 4×4 identity when no transform file is supplied, and the offset added
before the transform is applied. -/
theorem claim1_normalize_affine (fname : String) (xfm : Option (String × List String))
    (m out : Mesh) (rows : List (List ℚ)) (r a s : ℚ)
    (hload : load_transform xfm = some rows)
    (hR : getRasComp m.meta "VolGeomC_R" = some r)
    (hA : getRasComp m.meta "VolGeomC_A" = some a)
    (hS : getRasComp m.meta "VolGeomC_S" = some s)
    (hrun : normalize_surfs fname xfm m = some out) :
    out.coords = m.coords.map (fun v => homogApply (mat4OfRows rows) (v + (r, a, s))) ∧
    (xfm = none →
      mat4OfRows rows = 1 ∧ out.coords = m.coords.map (fun v => v + (r, a, s))) := by
  have hras : getRas m.meta = some (r, a, s) := by
    unfold getRas
    rw [hR]
    simp only [Option.bind_eq_bind', Option.some_bind']
    rw [hA]
    simp only [Option.some_bind']
    rw [hS]
    rfl
  obtain ⟨hU, hout⟩ := normalize_surfs_eq_some fname xfm m out rows (r, a, s) hload hras hrun
  have hcoords : out.coords = m.coords.map (fun v => applyRowsTop3 rows (v + (r, a, s))) := by
    rw [hout]
  refine ⟨hcoords, ?_⟩
  rintro rfl
  have hrows : rows = eyeRows := by
    have : some eyeRows = some rows := hload
    exact (Option.some.inj this).symm
  subst hrows
  refine ⟨mat4OfRows_eye, ?_⟩
  rw [hcoords]
  apply List.map_congr_left
  intro v _
  exact applyRowsTop3_eye (v + (r, a, s))

/-- C1 witness: `normalize_surfs` on `meshA` (offsets `1.5`, `-2`, `0`) with no
transform file. -/
theorem claim1_witness :
    meshA_normA.coords =
        meshA.coords.map (fun v => homogApply (mat4OfRows eyeRows) (v + (3/2, -2, 0))) ∧
    ((none : Option (String × List String)) = none →
      mat4OfRows eyeRows = 1 ∧
      meshA_normA.coords = meshA.coords.map (fun v => v + (3/2, -2, 0))) :=
  claim1_normalize_affine "lh.pial.gii" none meshA meshA_normA eyeRows (3/2) (-2) 0
    (by with_unfolding_all decide) (by with_unfolding_all decide)
    (by with_unfolding_all decide) (by with_unfolding_all decide)
    (by with_unfolding_all decide)

/-- C3: Operation B with `center=true` reads the three geometry-center values
from the original mesh, adds the offset to the coordinates after the matrix
has been applied (unlike Operation A, which adds it before the transform),
and sets each of the three geometry-center metadata values in the output to
exactly the string `"0.000000"`. -/
theorem claim3_center_post_offset (ls : List String) (invert : Bool) (m out : Mesh)
    (M : Mat4) (sR sA sS : String) (r a s : ℚ)
    (hx : surf2surfXfm ls invert = some M)
    (hR : lookupMeta m.meta "VolGeomC_R" = some sR) (hr : parseDec sR = some r)
    (hA : lookupMeta m.meta "VolGeomC_A" = some sA) (ha : parseDec sA = some a)
    (hS : lookupMeta m.meta "VolGeomC_S" = some sS) (hs : parseDec sS = some s)
    (hrun : surf2surf ls invert m true = some out) :
    out.coords = m.coords.map (fun v => homogApply M v + (r, a, s)) ∧
    lookupMeta out.meta "VolGeomC_R" = some "0.000000" ∧
    lookupMeta out.meta "VolGeomC_A" = some "0.000000" ∧
    lookupMeta out.meta "VolGeomC_S" = some "0.000000" := by
  have hout := surf2surf_eq_some_center ls invert m out M sR sA sS r a s
    hx hR hr hA ha hS hs hrun
  rw [hout]
  refine ⟨rfl, ?_, ?_, ?_⟩
  · rw [lookupMeta_setKV_other _ _ _ _ (by decide),
      lookupMeta_setKV_other _ _ _ _ (by decide), lookupMeta_setKV_self]
  · rw [lookupMeta_setKV_other _ _ _ _ (by decide), lookupMeta_setKV_self]
  · rw [lookupMeta_setKV_self]

/-- C3 witness: `surf2surf` on `meshA` with the standard LTA file,
`invert=False`, `center=True`. -/
theorem claim3_witness :
    meshA_xfmCentered.coords =
        meshA.coords.map (fun v => homogApply (mat4OfRows ltaStdRows) v + (3/2, -2, 0)) ∧
    lookupMeta meshA_xfmCentered.meta "VolGeomC_R" = some "0.000000" ∧
    lookupMeta meshA_xfmCentered.meta "VolGeomC_A" = some "0.000000" ∧
    lookupMeta meshA_xfmCentered.meta "VolGeomC_S" = some "0.000000" :=
  claim3_center_post_offset ltaStdLines false meshA meshA_xfmCentered
    (mat4OfRows ltaStdRows) "1.5" "-2" "0.000000" (3/2) (-2) 0
    (by with_unfolding_all decide) (by with_unfolding_all decide)
    (by with_unfolding_all decide) (by with_unfolding_all decide)
    (by with_unfolding_all decide) (by with_unfolding_all decide)
    (by with_unfolding_all decide) (by with_unfolding_all decide)

/-- C6: in Operation A's metadata pass, exactly when the file name contains
`midthickness` or `graymid` case-insensitively, the
`AnatomicalStructureSecondary=MidThickness` entry is inserted at list position
1 when its key is absent and `GeometricType=Anatomical` at list position 2
when its key is absent; a present key is never duplicated, no other entry is
reordered (the zeroing sweep only rewrites geometry-center values in place),
and a pass over a list that already has both keys adds no entries. -/
theorem claim6_metadata_insertion (fname : String) (meta : List (String × String)) :
    (isMidName fname = false → metaStage fname meta = zeroCras meta) ∧
    (isMidName fname = true → hasKey meta secondaryNV.1 = false →
      hasKey meta geomTypeNV.1 = false →
      metaStage fname meta = pyInsert 2 geomTypeNV (pyInsert 1 secondaryNV (zeroCras meta))) ∧
    (isMidName fname = true → hasKey meta secondaryNV.1 = true →
      hasKey meta geomTypeNV.1 = false →
      metaStage fname meta = pyInsert 2 geomTypeNV (zeroCras meta)) ∧
    (isMidName fname = true → hasKey meta secondaryNV.1 = false →
      hasKey meta geomTypeNV.1 = true →
      metaStage fname meta = pyInsert 1 secondaryNV (zeroCras meta)) ∧
    (hasKey meta secondaryNV.1 = true → hasKey meta geomTypeNV.1 = true →
      metaStage fname meta = zeroCras meta ∧ (metaStage fname meta).length = meta.length) ∧
    (metaStage fname meta).filter
        (fun p => !(p.1 == secondaryNV.1) && !(p.1 == geomTypeNV.1)) =
      (zeroCras meta).filter
        (fun p => !(p.1 == secondaryNV.1) && !(p.1 == geomTypeNV.1)) := by
  have hzl : ∀ l : List (String × String), (zeroCras l).length = l.length := by
    intro l; unfold zeroCras; exact List.length_map _ _
  have hboth : hasKey meta secondaryNV.1 = true → hasKey meta geomTypeNV.1 = true →
      metaStage fname meta = zeroCras meta := by
    intro ha hg
    unfold metaStage
    by_cases hmid : isMidName fname = true <;> simp [hmid, ha, hg]
  refine ⟨?_, ?_, ?_, ?_, ?_, ?_⟩
  · intro hmid
    unfold metaStage
    simp [hmid]
  · intro hmid ha hg
    unfold metaStage
    simp [hmid, ha, hg]
  · intro hmid ha hg
    unfold metaStage
    simp [hmid, ha, hg]
  · intro hmid ha hg
    unfold metaStage
    simp [hmid, ha, hg]
  · intro ha hg
    refine ⟨hboth ha hg, ?_⟩
    rw [hboth ha hg]
    exact hzl meta
  · have hpsec : (fun p : String × String =>
        !(p.1 == secondaryNV.1) && !(p.1 == geomTypeNV.1)) secondaryNV = false := by
      decide
    have hpgeo : (fun p : String × String =>
        !(p.1 == secondaryNV.1) && !(p.1 == geomTypeNV.1)) geomTypeNV = false := by
      decide
    unfold metaStage
    by_cases hmid : isMidName fname = true
    · by_cases ha : hasKey meta secondaryNV.1 = true <;>
        by_cases hg : hasKey meta geomTypeNV.1 = true <;>
        simp only [hmid, ha, hg, if_true, ite_true, ite_false, Bool.false_eq_true,
          if_false] <;>
        first
          | rfl
          | rw [filter_pyInsert _ 2 geomTypeNV _ hpgeo,
              filter_pyInsert _ 1 secondaryNV _ hpsec]
          | rw [filter_pyInsert _ 1 secondaryNV _ hpsec]
          | rw [filter_pyInsert _ 2 geomTypeNV _ hpgeo]
    · simp [hmid]

/-- C6 witness: a `midthickness` file name and a metadata list lacking both
structural keys gains exactly the two entries at positions 1 and 2. -/
theorem claim6_witness :
    isMidName "lh.midthickness.gii" = true ∧
    hasKey meshA.meta secondaryNV.1 = false ∧
    hasKey meshA.meta geomTypeNV.1 = false ∧
    metaStage "lh.midthickness.gii" meshA.meta =
      pyInsert 2 geomTypeNV (pyInsert 1 secondaryNV (zeroCras meshA.meta)) :=
  ⟨by with_unfolding_all decide, by with_unfolding_all decide,
   by with_unfolding_all decide,
   (claim6_metadata_insertion "lh.midthickness.gii" meshA.meta).2.1
     (by with_unfolding_all decide) (by with_unfolding_all decide)
     (by with_unfolding_all decide)⟩

/-- C2 counterexample: on `ltaShiftLines` — a well-formed LTA file whose
`1 4 4` marker is the fourth line (index 3) rather than the fifth — the matrix
`surf2surf` applies (fixed lines 5‥8, here shown with `invert=false` so the
read matrix is the applied matrix) has `0` in its upper-left entry, while the
matrix `load_transform` produces (the four lines after the marker) has `2`
there: the two are different matrices, refuting the claim that they always
agree. -/
theorem claim2_counterexample :
    (surf2surfXfm ltaShiftLines false).map (fun M => M 0 0) = some 0 ∧
    (load_transform (some ("xfm.lta", ltaShiftLines))).map
        (fun rows => mat4OfRows rows 0 0) = some 2 ∧
    (0 : ℚ) ≠ 2 := by
  refine ⟨?_, ?_, by norm_num⟩ <;> with_unfolding_all decide

/-- C2 amended: `surf2surf` parses the matrix from fixed line positions 5‥8
(0-based), never scanning for the `1 4 4` marker; this coincides with
`load_transform`'s marker-scan exactly when the first marker line sits at
index 4 (the layout of FreeSurfer-emitted LTA files) and the four following
lines parse as 4-float rows. -/
theorem claim2_amended_fixed_lines (path l0 l1 l2 l3 l4 r0 r1 r2 r3 : String)
    (rest : List String) (q0 q1 q2 q3 : List ℚ)
    (hpath : strEndsWith path ".lta" = true)
    (h0 : startsWith144 l0 = false) (h1 : startsWith144 l1 = false)
    (h2 : startsWith144 l2 = false) (h3 : startsWith144 l3 = false)
    (h4 : startsWith144 l4 = true)
    (hq0 : parseRow r0 = some q0) (hw0 : q0.length = 4)
    (hq1 : parseRow r1 = some q1) (hw1 : q1.length = 4)
    (hq2 : parseRow r2 = some q2) (hw2 : q2.length = 4)
    (hq3 : parseRow r3 = some q3) (hw3 : q3.length = 4) :
    fixedLtaRows (l0 :: l1 :: l2 :: l3 :: l4 :: r0 :: r1 :: r2 :: r3 :: rest) =
      some [q0, q1, q2, q3] ∧
    load_transform (some (path, l0 :: l1 :: l2 :: l3 :: l4 :: r0 :: r1 :: r2 :: r3 :: rest)) =
      some [q0, q1, q2, q3] := by
  constructor
  · unfold fixedLtaRows
    simp only [List.drop_succ_cons, List.drop_zero, List.take_succ_cons, List.take_zero]
    rw [List.mapM_cons, List.mapM_cons, List.mapM_cons, List.mapM_cons,
      hq0, hq1, hq2, hq3]
    rfl
  · simp only [load_transform]
    rw [lta_not_mat path hpath]
    simp only [Bool.false_eq_true, if_false, hpath, if_true]
    unfold ltaScanRows
    rw [List.dropWhile_cons_of_pos (by rw [h0]; rfl),
      List.dropWhile_cons_of_pos (by rw [h1]; rfl),
      List.dropWhile_cons_of_pos (by rw [h2]; rfl),
      List.dropWhile_cons_of_pos (by rw [h3]; rfl),
      List.dropWhile_cons_of_neg (by rw [h4]; exact fun hc => by simp at hc)]
    simp only [List.drop_succ_cons, List.drop_zero, List.take_succ_cons, List.take_zero]
    rw [List.mapM_cons, List.mapM_cons, List.mapM_cons, List.mapM_cons,
      hq0, hq1, hq2, hq3]
    simp [List.mapM.loop, hw0, hw1, hw2, hw3]

/-- C2 amended witness: the standard LTA layout `ltaStdLines`. -/
theorem claim2_witness :
    fixedLtaRows ltaStdLines = some ltaStdRows ∧
    load_transform (some ("xfm.lta", ltaStdLines)) = some ltaStdRows :=
  claim2_amended_fixed_lines "xfm.lta"
    "# transform file" "type      = 1" "nxforms   = 1" "mean      = 0.0 0.0 0.0"
    "1 4 4" "1 0 0 5" "0 1 0 0" "0 0 1 0" "0 0 0 1" []
    [1, 0, 0, 5] [0, 1, 0, 0] [0, 0, 1, 0] [0, 0, 0, 1]
    (by with_unfolding_all decide) (by with_unfolding_all decide)
    (by with_unfolding_all decide) (by with_unfolding_all decide)
    (by with_unfolding_all decide) (by with_unfolding_all decide)
    (by with_unfolding_all decide) (by with_unfolding_all decide)
    (by with_unfolding_all decide) (by with_unfolding_all decide)
    (by with_unfolding_all decide) (by with_unfolding_all decide)
    (by with_unfolding_all decide) (by with_unfolding_all decide)

/-- C4 counterexample: on an LTA file with no `1 4 4` marker, loading does not
fail — `genfromtxt` on the empty remainder only warns, so `load_transform`
returns the empty (0-row) matrix. -/
theorem claim4_counterexample :
    load_transform (some ("xfm.lta", ltaNoMarkerLines)) = some [] ∧
    load_transform (some ("xfm.lta", ltaNoMarkerLines)) ≠ none := by
  refine ⟨?_, ?_⟩ <;> with_unfolding_all decide

/-- C4 amended: for every LTA file with no `1 4 4` marker, `load_transform`
returns the empty matrix (numpy only warns on the empty input), and the
normalization operation then fails — the empty transform cannot multiply the
4×N coordinate stack — so no output mesh is produced. -/
theorem claim4_no_marker (path : String) (ls : List String) (fname : String) (m : Mesh)
    (hpath : strEndsWith path ".lta" = true)
    (hm : ∀ l ∈ ls, startsWith144 l = false) :
    load_transform (some (path, ls)) = some [] ∧
    normalize_surfs fname (some (path, ls)) m = none := by
  have hload : load_transform (some (path, ls)) = some [] := by
    simp only [load_transform]
    rw [lta_not_mat path hpath]
    simp only [Bool.false_eq_true, if_false, hpath, if_true]
    unfold ltaScanRows
    have hdrop : ls.dropWhile (fun l => !startsWith144 l) = [] := by
      rw [List.dropWhile_eq_nil_iff]
      intro l hl
      rw [hm l hl]
      rfl
    rw [hdrop]
    rfl
  refine ⟨hload, ?_⟩
  unfold normalize_surfs
  rw [hload]
  cases hras : getRas m.meta with
  | none => rfl
  | some ras => simp [rowsUsable]

/-- C4 amended witness: a marker-less LTA file applied to `meshA`. -/
theorem claim4_witness :
    load_transform (some ("xfm.lta", ltaNoMarkerLines)) = some [] ∧
    normalize_surfs "lh.pial.gii" (some ("xfm.lta", ltaNoMarkerLines)) meshA = none :=
  claim4_no_marker "xfm.lta" ltaNoMarkerLines "lh.pial.gii" meshA
    (by with_unfolding_all decide) (by with_unfolding_all decide)

/-- C5 counterexample: a `.mat` transform file with only two numeric rows does
not fail — `np.loadtxt` performs no row-count validation — and
`load_transform` returns the 2×4 matrix it read. -/
theorem claim5_counterexample :
    load_transform (some ("reg.mat", matTwoRowLines)) = some [[1, 0, 0, 5], [0, 1, 0, 0]] ∧
    load_transform (some ("reg.mat", matTwoRowLines)) ≠ none := by
  refine ⟨?_, ?_⟩ <;> with_unfolding_all decide

/-- C5 amended: for a `.mat` path, `load_transform` reads all
whitespace-separated numeric rows in row-major order with no count
validation: as many rows come back as the file has numeric lines — exactly
the 4×4 matrix for a well-formed 4-row file, a smaller matrix (and no error)
for a shorter one. -/
theorem claim5_mat_reads_all_rows (path : String) (ls : List String)
    (rows : List (List ℚ))
    (hpath : strEndsWith path ".mat" = true)
    (hclean : ∀ l ∈ ls, stripComment l = l.data ∧ lineTokens l ≠ [])
    (hparse : ls.mapM parseRow = some rows)
    (hw : ∀ row ∈ rows, row.length = 4) :
    load_transform (some (path, ls)) = some rows ∧ rows.length = ls.length := by
  have hlen := length_of_mapM parseRow ls rows hparse
  refine ⟨?_, hlen⟩
  simp only [load_transform]
  rw [hpath]
  simp only [if_true]
  unfold loadtxtRows
  have htok : ls.map (fun l => (splitWsAux (stripComment l) []).map String.mk) =
      ls.map lineTokens := by
    apply List.map_congr_left
    intro l hl
    rw [(hclean l hl).1]
    rfl
  rw [htok]
  have hfil : (ls.map lineTokens).filter (fun ts => !ts.isEmpty) = ls.map lineTokens := by
    rw [List.filter_eq_self]
    intro ts hts
    rw [List.mem_map] at hts
    obtain ⟨l, hl, rfl⟩ := hts
    have := (hclean l hl).2
    simpa [List.isEmpty_iff] using this
  rw [hfil]
  rw [mapM_map]
  have : (ls.mapM fun a => (lineTokens a).mapM parseDec) = some rows := hparse
  rw [this]
  cases rows with
  | nil => rfl
  | cons r rs =>
      have hr : r.length = 4 := hw r (by simp)
      have hrs : ∀ x ∈ rs, x.length = r.length := by
        intro x hx
        rw [hw x (by simp [hx]), hr]
      simp only [List.all_eq_true]
      rw [if_pos ?_]
      intro x hx
      simpa using hrs x hx

/-- C5 amended witness: the two-row `.mat` file loads as a 2×4 matrix. -/
theorem claim5_witness :
    load_transform (some ("reg.mat", matTwoRowLines)) =
      some [[1, 0, 0, 5], [0, 1, 0, 0]] ∧
    ([[1, 0, 0, 5], [0, 1, 0, 0]] : List (List ℚ)).length = matTwoRowLines.length :=
  claim5_mat_reads_all_rows "reg.mat" matTwoRowLines [[1, 0, 0, 5], [0, 1, 0, 0]]
    (by with_unfolding_all decide) (by with_unfolding_all decide)
    (by with_unfolding_all decide) (by with_unfolding_all decide)

/-- C7 counterexample: `surf2surf` narrows face indices to float32, and the
index `33554433 = 2^25 + 1` is not float32-representable: the output face
triple is `(33554432, 0, 1)`, not value-identical to the input
`(33554433, 0, 1)`. -/
theorem claim7_counterexample :
    (surf2surf ltaStdLines false meshBigFace false).map Mesh.faces =
      some [(33554432, 0, 1)] ∧
    meshBigFace.faces = [(33554433, 0, 1)] ∧
    ([(33554432, 0, 1)] : List (ℤ × ℤ × ℤ)) ≠ [(33554433, 0, 1)] := by
  refine ⟨?_, ?_, ?_⟩ <;> decide

/-- C7 amended: both operations always preserve the vertex count, the face
count and the face order, and `normalize_surfs` leaves face triples untouched;
`surf2surf` stores the float32 narrowing of the face indices, which is
value-identical to the input exactly on indices representable in float32 — in
particular whenever every index is below `2^24` — but not in general. -/
theorem claim7_faces_and_counts (ls : List String) (invert center : Bool)
    (m out : Mesh) (fname : String) (xfm : Option (String × List String)) (out2 : Mesh)
    (hrun : surf2surf ls invert m center = some out)
    (hrun2 : normalize_surfs fname xfm m = some out2) :
    out.coords.length = m.coords.length ∧
    out.faces = facesF32 m.faces ∧
    out.faces.length = m.faces.length ∧
    ((∀ f ∈ m.faces, f.1.natAbs < 2 ^ 24 ∧ f.2.1.natAbs < 2 ^ 24 ∧
        f.2.2.natAbs < 2 ^ 24) → out.faces = m.faces) ∧
    out2.faces = m.faces ∧ out2.coords.length = m.coords.length := by
  obtain ⟨hf, hc⟩ := surf2surf_shape ls invert center m out hrun
  obtain ⟨hf2, hc2⟩ := normalize_surfs_shape fname xfm m out2 hrun2
  refine ⟨hc, hf, by rw [hf]; exact List.length_map _ _, ?_, hf2, hc2⟩
  intro hsmall
  rw [hf]
  unfold facesF32
  have hcongr : ∀ f ∈ m.faces,
      (roundF32 f.1, roundF32 f.2.1, roundF32 f.2.2) = id f := by
    intro f hfm
    obtain ⟨h1, h2, h3⟩ := hsmall f hfm
    obtain ⟨x, y, z⟩ := f
    simp only [id]
    rw [roundF32_eq_of_small _ h1, roundF32_eq_of_small _ h2, roundF32_eq_of_small _ h3]
  rw [List.map_congr_left hcongr, List.map_id]

/-- C7 amended witness: `meshA` (small indices) through both operations. -/
theorem claim7_witness :
    meshA_xfmPlain.coords.length = meshA.coords.length ∧
    meshA_xfmPlain.faces = facesF32 meshA.faces ∧
    meshA_xfmPlain.faces.length = meshA.faces.length ∧
    ((∀ f ∈ meshA.faces, f.1.natAbs < 2 ^ 24 ∧ f.2.1.natAbs < 2 ^ 24 ∧
        f.2.2.natAbs < 2 ^ 24) → meshA_xfmPlain.faces = meshA.faces) ∧
    meshA_normA.faces = meshA.faces ∧ meshA_normA.coords.length = meshA.coords.length :=
  claim7_faces_and_counts ltaStdLines false false meshA meshA_xfmPlain
    "lh.pial.gii" none meshA_normA
    (by with_unfolding_all decide) (by with_unfolding_all decide)

/-- C8: Operation A is idempotent — on the output of a `normalize_surfs` run
with no transform file (whose geometry-center offsets are now zeroed), a
second run reproduces that output exactly, so in particular the vertex
coordinates are identical. -/
theorem claim8_normalize_idempotent (fname : String) (m out : Mesh)
    (hrun : normalize_surfs fname none m = some out) :
    normalize_surfs fname none out = some out := by
  cases hras : getRas m.meta with
  | none =>
      exfalso
      unfold normalize_surfs at hrun
      rw [hras] at hrun
      simp at hrun
  | some ras =>
      obtain ⟨hU, hout⟩ := normalize_surfs_eq_some fname none m out eyeRows ras
        rfl hras hrun
      have hmeta : out.meta = metaStage fname m.meta := by rw [hout]
      have hras2 : getRas out.meta = some (0, 0, 0) := by
        rw [hmeta]
        unfold getRas
        rw [getRasComp_metaStage fname m.meta _ (by simp [c_ras_keys])]
        simp only [Option.bind_eq_bind', Option.some_bind']
        rw [getRasComp_metaStage fname m.meta _ (by simp [c_ras_keys])]
        simp only [Option.some_bind']
        rw [getRasComp_metaStage fname m.meta _ (by simp [c_ras_keys])]
        rfl
      unfold normalize_surfs
      rw [hras2]
      simp only [load_transform, Option.bind_eq_bind', Option.some_bind']
      rw [if_pos (by with_unfolding_all decide : rowsUsable eyeRows = true)]
      congr 1
      have hcoords : out.coords.map (fun v => applyRowsTop3 eyeRows (v + (0, 0, 0))) =
          out.coords := by
        have : ∀ v ∈ out.coords, applyRowsTop3 eyeRows (v + (0, 0, 0)) = id v := by
          intro v _
          obtain ⟨x, y, z⟩ := v
          rw [applyRowsTop3_eye]
          simp [id]
        rw [List.map_congr_left this, List.map_id]
      have hmeta2 : metaStage fname out.meta = out.meta := by
        rw [hmeta, metaStage_idem]
      cases out with
      | mk c f mt => simp_all

/-- C8 witness: re-running Operation A on the output for `meshA`. -/
theorem claim8_witness :
    normalize_surfs "lh.pial.gii" none meshA_normA = some meshA_normA :=
  claim8_normalize_idempotent "lh.pial.gii" meshA meshA_normA
    (by with_unfolding_all decide)

/-- C9: `surf2surf`'s `invert` parameter defaults to `True`, the
`ApplyLTATransform` interface calls `surf2surf` without passing `invert` (and
exposes no input reaching it), and consequently the matrix applied through the
interface is the inverse — a genuine two-sided inverse, as the last two
conjuncts certify — of the matrix read from the LTA file. -/
theorem claim9_interface_inverts (ls : List String) (m : Mesh) (c : Bool)
    (rows : List (List ℚ))
    (hrows : fixedLtaRows ls = some rows)
    (hshape : rows.length = 4 ∧ rows.all (fun r => r.length = 4))
    (hdet : det4 (mat4OfRows rows) ≠ 0) :
    surf2surfInvertDefault = true ∧
    applyLTATransform ls m c = surf2surf ls true m c ∧
    applyLTAXfm ls = some (inv4 (mat4OfRows rows)) ∧
    inv4 (mat4OfRows rows) * mat4OfRows rows = 1 ∧
    mat4OfRows rows * inv4 (mat4OfRows rows) = 1 := by
  refine ⟨rfl, rfl, ?_, (inv4_mul _ hdet).1, (inv4_mul _ hdet).2⟩
  unfold applyLTAXfm surf2surfInvertDefault surf2surfXfm
  rw [hrows]
  simp only [Option.bind_eq_bind', Option.some_bind']
  rw [if_pos hshape, if_pos trivial, if_neg hdet]

/-- C9 witness: the standard LTA file, whose matrix has determinant 1. -/
theorem claim9_witness :
    surf2surfInvertDefault = true ∧
    applyLTATransform ltaStdLines meshA true = surf2surf ltaStdLines true meshA true ∧
    applyLTAXfm ltaStdLines = some (inv4 (mat4OfRows ltaStdRows)) ∧
    inv4 (mat4OfRows ltaStdRows) * mat4OfRows ltaStdRows = 1 ∧
    mat4OfRows ltaStdRows * inv4 (mat4OfRows ltaStdRows) = 1 :=
  claim9_interface_inverts ltaStdLines meshA true ltaStdRows
    (by with_unfolding_all decide) (by with_unfolding_all decide)
    (by with_unfolding_all decide)

/-- C10: with `center=true` and any of the three geometry-center keys absent
from the mesh metadata, `surf2surf` fails (the dict lookup raises) and writes
no output, whichever transform lines and `invert` flag are supplied; the same
absent key costs Operation A nothing — `normalize_surfs` reads it as offset
`0` and, with no transform file and the present keys parsable, completes. -/
theorem claim10_missing_key_asymmetry (k : String) (ls : List String) (invert : Bool)
    (fname : String) (m : Mesh)
    (hk : k ∈ c_ras_keys)
    (hmiss : lookupMeta m.meta k = none)
    (hothers : ∀ k2 ∈ c_ras_keys, getRasComp m.meta k2 ≠ none) :
    surf2surf ls invert m true = none ∧
    getRasComp m.meta k = some 0 ∧
    normalize_surfs fname none m ≠ none := by
  refine ⟨surf2surf_center_missing ls invert m k hk hmiss, ?_, ?_⟩
  · unfold getRasComp
    rw [hmiss]
  · cases hR : getRasComp m.meta "VolGeomC_R" with
    | none => exact absurd hR (hothers _ (by simp [c_ras_keys]))
    | some r =>
    cases hA : getRasComp m.meta "VolGeomC_A" with
    | none => exact absurd hA (hothers _ (by simp [c_ras_keys]))
    | some a =>
    cases hS : getRasComp m.meta "VolGeomC_S" with
    | none => exact absurd hS (hothers _ (by simp [c_ras_keys]))
    | some s =>
    have hras : getRas m.meta = some (r, a, s) := by
      unfold getRas
      rw [hR]
      simp only [Option.bind_eq_bind', Option.some_bind']
      rw [hA]
      simp only [Option.some_bind']
      rw [hS]
      rfl
    unfold normalize_surfs
    rw [hras]
    simp only [load_transform, Option.bind_eq_bind', Option.some_bind']
    rw [if_pos (by with_unfolding_all decide : rowsUsable eyeRows = true)]
    simp

/-- C10 witness: `meshNoA` lacks `VolGeomC_A`; Operation B with `center` set
fails on it while Operation A succeeds. -/
theorem claim10_witness :
    surf2surf ltaStdLines false meshNoA true = none ∧
    getRasComp meshNoA.meta "VolGeomC_A" = some 0 ∧
    normalize_surfs "lh.pial.gii" none meshNoA ≠ none :=
  claim10_missing_key_asymmetry "VolGeomC_A" ltaStdLines false "lh.pial.gii" meshNoA
    (by with_unfolding_all decide) (by with_unfolding_all decide)
    (by with_unfolding_all decide)

end Regseg
